import Mathlib

/-!
Shallow embedding of the CloudML tourism assistant (app/main.py).

External services are modelled as explicit inputs:
* the structured store (Azure SQL) as a `Db` value, or a connection failure
  (`Except.error`), since every failure raised inside the resolver is caught
  by its single try/except;
* the document search service as the list of hits it returned for this
  request (the service is called with a top-k cap of 3);
* the generation call and wall-clock latency are omitted: their outputs never
  feed back into the retrieval, citation, or flow-label logic.

Python string primitives (substring test, replace-all, lower, strip, join)
are modelled on `List Char` by structural recursion so that everything
evaluates inside the kernel.
-/

/-- Does `s` start with `pat`? -/
def startsWithL : List Char → List Char → Bool
  | [], _ => true
  | _ :: _, [] => false
  | a :: as, b :: bs => a == b && startsWithL as bs

/-- `subAt s pat`: does `pat` occur as a contiguous substring of `s`
(Python `pat in s`)? -/
def subAt : List Char → List Char → Bool
  | [], pat => pat.isEmpty
  | c :: rest, pat => startsWithL pat (c :: rest) || subAt rest pat

/-- Python `pat in s` on strings. -/
def containsSub (s pat : String) : Bool := subAt s.data pat.data

/-- Replace all non-overlapping occurrences of `pat` (nonempty) by `rep`,
left to right, exactly as Python `str.replace`; the fuel argument starts at
the length of the scanned list, which a step never exhausts early. -/
def replaceAllAux (rep pat : List Char) : Nat → List Char → List Char
  | _, [] => []
  | 0, s => s
  | fuel + 1, c :: rest =>
    if startsWithL pat (c :: rest) then rep ++ replaceAllAux rep pat fuel ((c :: rest).drop pat.length)
    else c :: replaceAllAux rep pat fuel rest

/-- Python `s.replace(pat, rep)`; all call sites of the source pass a
nonempty `pat`, for which this model is exact. -/
def replaceAll (s pat rep : String) : String :=
  if pat.isEmpty then s
  else String.mk (replaceAllAux rep.data pat.data s.data.length s.data)

/-- Python `s.lower()` (restricted to ASCII case mapping; every concrete
input used below is already lower-case, as the source lowers questions before
any comparison). -/
def lowerStr (s : String) : String := String.mk (s.data.map Char.toLower)

/-- Python `s.strip()`. -/
def stripWs (s : String) : String :=
  String.mk (((s.data.dropWhile Char.isWhitespace).reverse.dropWhile Char.isWhitespace).reverse)

def dedupAux : List String → List String → List String
  | [], _ => []
  | x :: xs, seen => if seen.contains x then dedupAux xs seen else x :: dedupAux xs (x :: seen)

/-- Python `list(dict.fromkeys(l))`: de-duplication keeping first occurrences. -/
def dedupFirst (l : List String) : List String := dedupAux l []

/-- Python `sep.join(l)`. -/
def joinSep (sep : String) : List String → String
  | [] => ""
  | [x] => x
  | x :: y :: ys => x ++ sep ++ joinSep sep (y :: ys)

/-- A row of the `opening_hours` relation. -/
structure HoursRow where
  attraction_name : String
  open_time : String
  close_time : String
deriving DecidableEq

/-- A row of the `tickets` relation. Prices are modelled as naturals; the
NULLs produced by the LEFT JOINs appear as `Option.none` at the joined-row
level. -/
structure TicketRow where
  attraction_name : String
  ticket_type : String
  price : Nat
  currency : String
deriving DecidableEq

/-- The three relations of the structured store. -/
structure Db where
  attractions : List String
  hours : List HoursRow
  tickets : List TicketRow
deriving DecidableEq

inductive SqlOrder
  | asc
  | desc
deriving DecidableEq

def aggWordsAsc : List String := ["ieftin", "minim", "mic"]

def aggWordsDesc : List String := ["scump", "maxim", "mare"]

/-- The aggregate-mode trigger of `get_sql_data`: `order = "ASC"` on a
cheapest-style word, else `"DESC"` on a priciest-style word, else unset. -/
def aggOrder (q_lower : String) : Option SqlOrder :=
  if aggWordsAsc.any (fun w => containsSub q_lower w) then some SqlOrder.asc
  else if aggWordsDesc.any (fun w => containsSub q_lower w) then some SqlOrder.desc
  else none

/-- A row of `attractions JOIN tickets` as selected by the aggregate query. -/
structure AggRow where
  attraction_name : String
  price : Nat
  currency : String
  ticket_type : String
deriving DecidableEq

/-- The aggregate join `FROM attractions a JOIN tickets t ON a.attraction_name
= t.attraction_name`, in a deterministic nested-loop order (the source SQL
leaves the order of equal-price rows unspecified). -/
def joinedTickets (db : Db) : List AggRow :=
  db.attractions.flatMap (fun a =>
    (db.tickets.filter (fun t => t.attraction_name == a)).map
      (fun t => ⟨a, t.price, t.currency, t.ticket_type⟩))

def betterRow (o : SqlOrder) (new cur : Nat) : Bool :=
  match o with
  | SqlOrder.asc => decide (new < cur)
  | SqlOrder.desc => decide (cur < new)

def top1Aux (o : SqlOrder) : AggRow → List AggRow → AggRow
  | best, [] => best
  | best, r :: rs => top1Aux o (if betterRow o r.price best.price then r else best) rs

/-- `SELECT TOP 1 ... ORDER BY t.price ASC|DESC`: the first row attaining the
extremal price (ties resolved to the earliest row — a deterministic model of
the tie-break the SQL leaves open). -/
def top1 (o : SqlOrder) : List AggRow → Option AggRow
  | [] => none
  | r :: rs => some (top1Aux o r rs)

/-- The aggregate-mode evidence string rendered by `get_sql_data`. -/
def aggMsg (r : AggRow) : String :=
  "Informație SQL: " ++ r.attraction_name ++ " are biletul " ++ r.ticket_type ++
    " la prețul de " ++ toString r.price ++ " " ++ r.currency ++ "."

def noise : List String :=
  ["care", "este", "pretul", "prețul", "orarul", "programul", "la", "pentru", "e", "vă rog", "spune-mi"]

/-- Noise stripping: for each noise word `w` the source performs
`.replace(" w ", " ").replace("w ", "")`, then drops `?` and strips. -/
def searchTermOf (q_lower : String) : String :=
  stripWs (replaceAll
    (noise.foldl (fun s w => replaceAll (replaceAll s (" " ++ w ++ " ") " ") (w ++ " ") "") q_lower)
    "?" "")

/-- The bidirectional WHERE clause
`? LIKE '%' + a.attraction_name + '%' OR a.attraction_name LIKE ?`
with parameters `q_lower` and `%search_term%`. SQL Server LIKE compares
case-insensitively under the default collation, modelled by lowering the
stored name on both tests. -/
def matchedAttractions (db : Db) (q_lower : String) : List String :=
  db.attractions.filter (fun a =>
    containsSub q_lower (lowerStr a) || containsSub (lowerStr a) (searchTermOf q_lower))

/-- A row of `attractions LEFT JOIN opening_hours LEFT JOIN tickets`. -/
structure SqlRow where
  attraction_name : String
  open_time : Option String
  close_time : Option String
  price : Option Nat
  currency : Option String
  ticket_type : Option String
deriving DecidableEq

def hoursParts (db : Db) (a : String) : List (Option String × Option String) :=
  match db.hours.filter (fun h => h.attraction_name == a) with
  | [] => [(none, none)]
  | h :: hs => (h :: hs).map (fun h2 => (some h2.open_time, some h2.close_time))

def ticketParts (db : Db) (a : String) : List (Option Nat × Option String × Option String) :=
  match db.tickets.filter (fun t => t.attraction_name == a) with
  | [] => [(none, none, none)]
  | t :: ts => (t :: ts).map (fun t2 => (some t2.price, some t2.currency, some t2.ticket_type))

/-- The rows the double LEFT JOIN yields for one attraction, in a
deterministic nested-loop order (the source query has no ORDER BY). -/
def leftJoinRows (db : Db) (a : String) : List SqlRow :=
  (hoursParts db a).flatMap (fun hp =>
    (ticketParts db a).map (fun tp => ⟨a, hp.1, hp.2, tp.1, tp.2.1, tp.2.2⟩))

/-- All rows of the entity-scoped query: the join restricted by the WHERE
clause to the matched attractions. -/
def entityRows (db : Db) (q_lower : String) : List SqlRow :=
  (matchedAttractions db q_lower).flatMap (leftJoinRows db)

/-- Python f-string rendering of a value that may be None. -/
def fmtOpt : Option String → String
  | none => "None"
  | some s => s

def priceStr : Option Nat → String
  | none => "None"
  | some p => toString p

/-- Python truthiness of the row's price (`if r.price:`): false for NULL and
for a zero price. -/
def truthyPrice : Option Nat → Bool
  | none => false
  | some p => p != 0

/-- The ticket line `f"{r.ticket_type}: {r.price} {r.currency}"`. -/
def rowLine (r : SqlRow) : String :=
  fmtOpt r.ticket_type ++ ": " ++ priceStr r.price ++ " " ++ fmtOpt r.currency

structure EntityGroup where
  name : String
  orar : String
  bilete : List String
deriving DecidableEq

def addTicket (gs : List EntityGroup) (a line : String) : List EntityGroup :=
  gs.map (fun g => if g.name == a then ⟨g.name, g.orar, g.bilete ++ [line]⟩ else g)

/-- One step of the grouping loop over result rows: insert the entity on
first sight (recording its hours from that first row), then append the
ticket line when the row's price is truthy. -/
def groupStep (gs : List EntityGroup) (r : SqlRow) : List EntityGroup :=
  let gs2 := if gs.any (fun g => g.name == r.attraction_name) then gs
             else gs ++ [⟨r.attraction_name, fmtOpt r.open_time ++ "-" ++ fmtOpt r.close_time, []⟩]
  if truthyPrice r.price then addTicket gs2 r.attraction_name (rowLine r) else gs2

/-- The insertion-ordered `data` dictionary of the source. -/
def groupRows (rows : List SqlRow) : List EntityGroup := rows.foldl groupStep []

/-- `f"{name} (Orar: {info['orar']}, Bilete: {', '.join(info['bilete'])})"`. -/
def renderGroup (g : EntityGroup) : String :=
  g.name ++ " (Orar: " ++ g.orar ++ ", Bilete: " ++ joinSep ", " g.bilete ++ ")"

/-- Entity-scoped mode: `if rows: ... return "\n".join(res_parts); return None`. -/
def entityPart (db : Db) (q_lower : String) : Option String :=
  match entityRows db q_lower with
  | [] => none
  | r :: rs => some (joinSep "\n" ((groupRows (r :: rs)).map renderGroup))

/-- `get_sql_data`: the structured resolver. A failure while contacting the
store is the `Except.error` case of the connection argument; the source wraps
the whole body in try/except and returns None on any exception. When the
aggregate query is triggered but fetches no row, control falls through to the
entity-scoped query, exactly as in the source. -/
def get_sql_data (conn : Except String Db) (question : String) : Option String :=
  match conn with
  | Except.error _ => none
  | Except.ok db =>
    let q_lower := lowerStr question
    match aggOrder q_lower with
    | some o =>
      match top1 o (joinedTickets db) with
      | some row => some (aggMsg row)
      | none => entityPart db q_lower
    | none => entityPart db q_lower

/-- The structured-indicator vocabulary `sql_k` of the chat handler. -/
def sql_k : List String :=
  ["pret", "preț", "pretul", "prețul", "preturi", "prețuri",
   "bilet", "bilete", "biletul", "biletele", "biletului",
   "costa", "costă", "euro", "ieftin", "ieftină", "scump", "scumpă",
   "maxim", "minim", "mic", "mică", "mare",
   "orar", "orarul", "program", "programul", "funcționare", "vizitare",
   "deschis", "inchis", "închis", "cand", "când", "ora", "ore", "orele",
   "luni", "marti", "marți", "miercuri", "joi", "vineri", "sambata", "sâmbătă", "sâmbăta", "duminica", "duminică",
   "adult", "student", "copil", "copii", "senior", "gratuit", "gratis"]

/-- The document-indicator vocabulary `search_k` of the chat handler. -/
def search_k : List String :=
  ["reguli", "securitate", "vigoare", "safety", "sfat", "sfaturi", "tips",
   "recomand", "recomanda", "recomandări", "recomandari", "istorie", "detalii",
   "acces", "intrare", "ghid", "transport", "transportul", "metrou", "bus", "autobuz",
   "harta", "hartă", "validare", "validarea", "evita", "cozi", "cozile",
   "restricții", "restrictii", "călătorie", "calatorie", "cunoască", "cunoasca",
   "compară", "compara", "îmbarcare", "imbarcare", "vizitarea", "ploaie", "ploioasă"]

/-- One hit returned by the external document search service. -/
structure SearchHit where
  content : String
  source : String
  chunk_id : Nat
deriving DecidableEq

/-- The `(source, chunk_id)` pair exposed to the caller. -/
structure Citation where
  source : String
  chunk_id : Nat
deriving DecidableEq

/-- The observable outcome of the chat handler. The answer text and the
latency field of the source's response model are produced by the external
generation call and the wall clock and are omitted; `contexts` is the
evidence list assembled for the prompt. -/
structure ChatResponse where
  contexts : List String
  citations : List Citation
  execution_flow : String
deriving DecidableEq

/-- `is_sql_query = any(k in q_lower for k in sql_k)`. -/
def is_sql_query (question : String) : Bool :=
  sql_k.any (fun k => containsSub (lowerStr question) k)

/-- `needs_search = any(k in q_lower for k in search_k)`. -/
def needs_search (question : String) : Bool :=
  search_k.any (fun k => containsSub (lowerStr question) k)

/-- `sql_info`: the resolver output, consulted only when the structured
vocabulary fired. -/
def sql_info_of (conn : Except String Db) (question : String) : Option String :=
  if is_sql_query question then get_sql_data conn question else none

/-- The chat handler: structured path, conditional document path
(`if needs_search or not contexts`), then flow-label assembly
`" + ".join(list(dict.fromkeys(flow))) + " + LLM"`. -/
def chat (conn : Except String Db) (searchResults : List SearchHit) (question : String) : ChatResponse :=
  let sql_info := sql_info_of conn question
  let contexts0 : List String :=
    match sql_info with
    | some info => ["DATE SQL:\n" ++ info]
    | none => []
  let citations0 : List Citation :=
    match sql_info with
    | some _ => [⟨"Azure SQL Database", 0⟩]
    | none => []
  let flow0 : List String :=
    match sql_info with
    | some _ => ["SQL"]
    | none => []
  let doSearch := needs_search question || contexts0.isEmpty
  let contexts := contexts0 ++ (if doSearch then searchResults.map (fun r => "DOCUMENTE: " ++ r.content) else [])
  let citations := citations0 ++ (if doSearch then searchResults.map (fun r => Citation.mk r.source r.chunk_id) else [])
  let flow := flow0 ++ (if doSearch then ["SEARCH"] else [])
  ⟨contexts, citations, joinSep " + " (dedupFirst flow) ++ " + LLM"⟩

/-- An evidence item of the spec's data model: rendered text plus the
citation derived from it. -/
structure EvidenceItem where
  text : String
  cite : Citation

/-! ### Substring lemmas for the `containsSub` model -/

theorem sw_refl (p : List Char) : startsWithL p p = true := by
  induction p with
  | nil => rfl
  | cons a as ih => simp [startsWithL, ih]

theorem sw_append (p t : List Char) : startsWithL p (p ++ t) = true := by
  induction p generalizing t with
  | nil => rfl
  | cons a as ih => simp [startsWithL, ih]

theorem sw_mono (p : List Char) : ∀ s y, startsWithL p s = true → startsWithL p (s ++ y) = true := by
  induction p with
  | nil => intro s y _; rfl
  | cons a as ih =>
    intro s y h
    cases s with
    | nil => simp [startsWithL] at h
    | cons b bs =>
      simp [startsWithL] at h ⊢
      exact ⟨h.1, ih bs y h.2⟩

theorem subAt_nil_pat (s : List Char) : subAt s [] = true := by
  cases s <;> simp [subAt, startsWithL]

theorem subAt_of_sw (s p : List Char) (h : startsWithL p s = true) : subAt s p = true := by
  cases s with
  | nil =>
    cases p with
    | nil => rfl
    | cons a as => simp [startsWithL] at h
  | cons c rest => simp [subAt, h]

theorem subAt_append_left (x : List Char) {s p : List Char} (h : subAt s p = true) :
    subAt (x ++ s) p = true := by
  induction x with
  | nil => simpa using h
  | cons c cs ih => simp [subAt, ih]

theorem subAt_append_right {s p : List Char} (y : List Char) (h : subAt s p = true) :
    subAt (s ++ y) p = true := by
  induction s with
  | nil =>
    have hp : p = [] := by
      cases p with
      | nil => rfl
      | cons a as => simp [subAt, List.isEmpty] at h
    subst hp
    exact subAt_nil_pat y
  | cons c rest ih =>
    simp only [subAt, Bool.or_eq_true] at h
    rcases h with h1 | h2
    · have h3 := sw_mono p (c :: rest) y h1
      simp only [List.cons_append, subAt, Bool.or_eq_true]
      left
      simpa using h3
    · simp only [List.cons_append, subAt, Bool.or_eq_true]
      right
      exact ih h2

theorem strData_append (a b : String) : (a ++ b).data = a.data ++ b.data := rfl

theorem containsSub_self (s : String) : containsSub s s = true :=
  subAt_of_sw s.data s.data (sw_refl s.data)

theorem containsSub_append_left (a : String) {s p : String} (h : containsSub s p = true) :
    containsSub (a ++ s) p = true := by
  unfold containsSub at *
  rw [strData_append]
  exact subAt_append_left a.data h

theorem containsSub_append_right {s p : String} (b : String) (h : containsSub s p = true) :
    containsSub (s ++ b) p = true := by
  unfold containsSub at *
  rw [strData_append]
  exact subAt_append_right b.data h

theorem mem_joinSep (sep : String) :
    ∀ (l : List String) (x : String), x ∈ l → containsSub (joinSep sep l) x = true := by
  intro l
  induction l with
  | nil => intro x hx; cases hx
  | cons y ys ih =>
    intro x hx
    cases ys with
    | nil =>
      have hxy : x = y := by simpa using hx
      subst hxy
      simpa [joinSep] using containsSub_self x
    | cons z zs =>
      rcases List.mem_cons.mp hx with h1 | h2
      · subst h1
        simp only [joinSep]
        exact containsSub_append_right _ (containsSub_append_right _ (containsSub_self x))
      · simp only [joinSep]
        exact containsSub_append_left _ (ih x h2)

/-! ### Minimality of the modelled `SELECT TOP 1 ... ORDER BY price` -/

def priceLe (o : SqlOrder) (a b : Nat) : Prop :=
  match o with
  | SqlOrder.asc => a ≤ b
  | SqlOrder.desc => b ≤ a

theorem priceLe_refl (o : SqlOrder) (a : Nat) : priceLe o a a := by
  cases o <;> simp [priceLe]

theorem priceLe_trans {o : SqlOrder} {a b c : Nat} (h1 : priceLe o a b) (h2 : priceLe o b c) :
    priceLe o a c := by
  cases o <;> simp [priceLe] at * <;> omega

theorem betterRow_true {o : SqlOrder} {a b : Nat} (h : betterRow o a b = true) : priceLe o a b := by
  cases o <;> simp [betterRow, priceLe] at * <;> omega

theorem betterRow_false {o : SqlOrder} {a b : Nat} (h : betterRow o a b = false) : priceLe o b a := by
  cases o <;> simp [betterRow, priceLe] at * <;> omega

theorem top1Aux_min (o : SqlOrder) :
    ∀ (l : List AggRow) (best : AggRow),
      priceLe o (top1Aux o best l).price best.price ∧
      ∀ r ∈ l, priceLe o (top1Aux o best l).price r.price := by
  intro l
  induction l with
  | nil =>
    intro best
    exact ⟨priceLe_refl o best.price, by intro r hr; cases hr⟩
  | cons r rs ih =>
    intro best
    cases hb : betterRow o r.price best.price with
    | true =>
      have heq : top1Aux o best (r :: rs) = top1Aux o r rs := by simp [top1Aux, hb]
      obtain ⟨ih1, ih2⟩ := ih r
      refine ⟨?_, ?_⟩
      · rw [heq]; exact priceLe_trans ih1 (betterRow_true hb)
      · intro r2 hr2
        rw [heq]
        rcases List.mem_cons.mp hr2 with h1 | h2
        · subst h1; exact ih1
        · exact ih2 r2 h2
    | false =>
      have heq : top1Aux o best (r :: rs) = top1Aux o best rs := by simp [top1Aux, hb]
      obtain ⟨ih1, ih2⟩ := ih best
      refine ⟨?_, ?_⟩
      · rw [heq]; exact ih1
      · intro r2 hr2
        rw [heq]
        rcases List.mem_cons.mp hr2 with h1 | h2
        · subst h1; exact priceLe_trans ih1 (betterRow_false hb)
        · exact ih2 r2 h2

/-! ### Grouping lemmas for the entity-scoped mode -/

/-- The hours string the grouping loop records for an attraction: taken from
the first joined row, i.e. from the first matching `opening_hours` row, or
the Python rendering of two Nones when there is no such row. -/
def orarOf (db : Db) (a : String) : String :=
  match db.hours.filter (fun h => h.attraction_name == a) with
  | [] => "None-None"
  | h :: _ => h.open_time ++ "-" ++ h.close_time

/-- The ticket lines collected by the grouping loop, in row order: one line
per row whose price is truthy. -/
def linesOf (rows : List SqlRow) : List String :=
  rows.filterMap (fun r => if truthyPrice r.price then some (rowLine r) else none)

theorem hoursParts_ne_nil (db : Db) (a : String) : hoursParts db a ≠ [] := by
  unfold hoursParts
  split <;> simp

theorem ticketParts_ne_nil (db : Db) (a : String) : ticketParts db a ≠ [] := by
  unfold ticketParts
  split <;> simp

theorem leftJoinRows_name (db : Db) (a : String) :
    ∀ r ∈ leftJoinRows db a, r.attraction_name = a := by
  intro r hr
  unfold leftJoinRows at hr
  rw [List.mem_flatMap] at hr
  obtain ⟨hp, _, hmap⟩ := hr
  rw [List.mem_map] at hmap
  obtain ⟨tp, _, rfl⟩ := hmap
  rfl

theorem leftJoinRows_head (db : Db) (a : String) :
    ∃ r0 rest, leftJoinRows db a = r0 :: rest ∧
      r0.attraction_name = a ∧
      fmtOpt r0.open_time ++ "-" ++ fmtOpt r0.close_time = orarOf db a := by
  unfold leftJoinRows hoursParts ticketParts orarOf
  cases hf : db.hours.filter (fun h => h.attraction_name == a) with
  | nil =>
    cases tf : db.tickets.filter (fun t => t.attraction_name == a) with
    | nil => exact ⟨_, _, rfl, rfl, rfl⟩
    | cons t ts => exact ⟨_, _, rfl, rfl, rfl⟩
  | cons h hs =>
    cases tf : db.tickets.filter (fun t => t.attraction_name == a) with
    | nil => exact ⟨_, _, rfl, rfl, rfl⟩
    | cons t ts => exact ⟨_, _, rfl, rfl, rfl⟩

theorem foldl_groupStep_single (a o2 : String) :
    ∀ (rows : List SqlRow) (ls : List String),
      (∀ r ∈ rows, r.attraction_name = a) →
      List.foldl groupStep [⟨a, o2, ls⟩] rows = [⟨a, o2, ls ++ linesOf rows⟩] := by
  intro rows
  induction rows with
  | nil => intro ls _; simp [linesOf]
  | cons r rs ih =>
    intro ls hall
    have hr : r.attraction_name = a := hall r (List.mem_cons_self r rs)
    have hrs : ∀ r2 ∈ rs, r2.attraction_name = a := fun r2 h2 => hall r2 (List.mem_cons_of_mem r h2)
    rw [List.foldl_cons]
    cases ht : truthyPrice r.price with
    | false =>
      have hstep : groupStep [⟨a, o2, ls⟩] r = [⟨a, o2, ls⟩] := by
        simp [groupStep, hr, ht]
      rw [hstep, ih ls hrs]
      simp [linesOf, List.filterMap_cons, ht]
    | true =>
      have hstep : groupStep [⟨a, o2, ls⟩] r = [⟨a, o2, ls ++ [rowLine r]⟩] := by
        simp [groupStep, hr, ht, addTicket]
      rw [hstep, ih (ls ++ [rowLine r]) hrs]
      simp [linesOf, List.filterMap_cons, ht]

theorem groupRows_single (a : String) (r0 : SqlRow) (rest : List SqlRow)
    (h0 : r0.attraction_name = a) (hall : ∀ r ∈ rest, r.attraction_name = a) :
    groupRows (r0 :: rest) =
      [⟨a, fmtOpt r0.open_time ++ "-" ++ fmtOpt r0.close_time, linesOf (r0 :: rest)⟩] := by
  unfold groupRows
  rw [List.foldl_cons]
  cases ht : truthyPrice r0.price with
  | false =>
    have hstep : groupStep [] r0 = [⟨a, fmtOpt r0.open_time ++ "-" ++ fmtOpt r0.close_time, []⟩] := by
      simp [groupStep, ht, h0]
    rw [hstep, foldl_groupStep_single a _ rest [] hall]
    simp [linesOf, List.filterMap_cons, ht]
  | true =>
    have hstep : groupStep [] r0 =
        [⟨a, fmtOpt r0.open_time ++ "-" ++ fmtOpt r0.close_time, [rowLine r0]⟩] := by
      simp [groupStep, ht, h0, addTicket]
    rw [hstep, foldl_groupStep_single a _ rest [rowLine r0] hall]
    simp [linesOf, List.filterMap_cons, ht]

theorem ticket_line_mem (db : Db) (a : String) (t : TicketRow)
    (ht : t ∈ db.tickets) (ha : t.attraction_name = a) (hp : t.price ≠ 0) :
    (t.ticket_type ++ ": " ++ toString t.price ++ " " ++ t.currency) ∈ linesOf (leftJoinRows db a) := by
  have htf : t ∈ db.tickets.filter (fun t2 => t2.attraction_name == a) := by
    rw [List.mem_filter]
    exact ⟨ht, by simp [ha]⟩
  have htp : (some t.price, some t.currency, some t.ticket_type) ∈ ticketParts db a := by
    unfold ticketParts
    cases hf : db.tickets.filter (fun t2 => t2.attraction_name == a) with
    | nil => rw [hf] at htf; cases htf
    | cons u us =>
      rw [hf] at htf
      exact List.mem_map.mpr ⟨t, htf, rfl⟩
  obtain ⟨hp0, hps, hh⟩ : ∃ hp0 hps, hoursParts db a = hp0 :: hps := by
    cases hhp : hoursParts db a with
    | nil => exact absurd hhp (hoursParts_ne_nil db a)
    | cons x xs => exact ⟨x, xs, rfl⟩
  have hrow : (⟨a, hp0.1, hp0.2, some t.price, some t.currency, some t.ticket_type⟩ : SqlRow) ∈
      leftJoinRows db a := by
    unfold leftJoinRows
    rw [List.mem_flatMap]
    refine ⟨hp0, by rw [hh]; exact List.mem_cons_self _ _, ?_⟩
    exact List.mem_map.mpr ⟨(some t.price, some t.currency, some t.ticket_type), htp, rfl⟩
  unfold linesOf
  rw [List.mem_filterMap]
  refine ⟨⟨a, hp0.1, hp0.2, some t.price, some t.currency, some t.ticket_type⟩, hrow, ?_⟩
  have htruthy : truthyPrice (some t.price) = true := by simp [truthyPrice, hp]
  simp [htruthy, rowLine, fmtOpt, priceStr]

/-! ### Concrete stores used by witnesses and counterexamples -/

def dbL : Db := ⟨["l"], [⟨"l", "9", "17"⟩], [⟨"l", "adult", 22, "eur"⟩]⟩

def dbFree : Db := ⟨["l"], [⟨"l", "9", "17"⟩], [⟨"l", "copil", 0, "eur"⟩]⟩

def dbNT : Db := ⟨["l"], [⟨"l", "9", "17"⟩], []⟩

def dbAgg : Db := ⟨["l"], [], [⟨"l", "adult", 5, "eur"⟩, ⟨"l", "copil", 3, "eur"⟩]⟩

def dbEmpty : Db := ⟨[], [], []⟩

/-! ### Claims -/

/-- Claim C1, counterexample: the chat handler performs no citation
de-duplication. On a request whose document search returns two hits carrying
the same (source, chunk_id) pair, the output citation list contains that pair
twice, not once. -/
theorem C1_counterexample :
    (chat (Except.error "down") [⟨"x", "doc.pdf", 1⟩, ⟨"y", "doc.pdf", 1⟩] "").citations =
      [⟨"doc.pdf", 1⟩, ⟨"doc.pdf", 1⟩] ∧
    (chat (Except.error "down") [⟨"x", "doc.pdf", 1⟩, ⟨"y", "doc.pdf", 1⟩] "").citations.count
      ⟨"doc.pdf", 1⟩ = 2 := by
  decide

/-- Claim C1, amended: the citation list preserves first-seen order but is
not de-duplicated — whenever the document path runs, every (source, chunk_id)
pair occurs exactly as many times as evidence items carrying it: once for the
structured citation if the structured path fired, plus once per returned
document hit carrying it. -/
theorem C1_amended (conn : Except String Db) (res : List SearchHit) (q : String) (p : Citation)
    (hd : needs_search q = true) :
    (chat conn res q).citations.count p =
      (if (sql_info_of conn q).isSome ∧ p = Citation.mk "Azure SQL Database" 0 then 1 else 0) +
        (res.map (fun r => Citation.mk r.source r.chunk_id)).count p := by
  cases hs : sql_info_of conn q with
  | none => simp [chat, hs]
  | some info =>
    by_cases hp : p = Citation.mk "Azure SQL Database" 0
    · subst hp
      simp [chat, hs, hd, List.count_cons]
      omega
    · simp [chat, hs, hd, List.count_cons, hp, Ne.symm hp]

/-- Claim C1, witness for the amended theorem at a concrete input: two
document hits sharing (doc.pdf, 1) yield a citation count of 2 for that
pair. -/
theorem C1_amended_witness :
    (chat (Except.error "down") [⟨"x", "doc.pdf", 1⟩, ⟨"y", "doc.pdf", 1⟩] "bus").citations.count
      ⟨"doc.pdf", 1⟩ =
      (if (sql_info_of (Except.error "down") "bus").isSome ∧
          (⟨"doc.pdf", 1⟩ : Citation) = Citation.mk "Azure SQL Database" 0 then 1 else 0) +
        (([⟨"x", "doc.pdf", 1⟩, ⟨"y", "doc.pdf", 1⟩] : List SearchHit).map
          (fun r => Citation.mk r.source r.chunk_id)).count ⟨"doc.pdf", 1⟩ :=
  C1_amended (Except.error "down") [⟨"x", "doc.pdf", 1⟩, ⟨"y", "doc.pdf", 1⟩] "bus"
    ⟨"doc.pdf", 1⟩ (by decide)

/-- Claim C2: if the question contains a structured-indicator term but the
structured resolver yields no evidence, the document path still executes: the
assembled context and citations are exactly the document hits, the flow label
records the document tag, and the context is nonempty whenever the document
service returned hits. -/
theorem C2_fallback (conn : Except String Db) (res : List SearchHit) (q : String)
    (h1 : is_sql_query q = true) (h2 : get_sql_data conn q = none) :
    (chat conn res q).contexts = res.map (fun r => "DOCUMENTE: " ++ r.content) ∧
    (chat conn res q).citations = res.map (fun r => Citation.mk r.source r.chunk_id) ∧
    (chat conn res q).execution_flow = "SEARCH + LLM" ∧
    (res ≠ [] → (chat conn res q).contexts ≠ []) := by
  have hs : sql_info_of conn q = none := by simp [sql_info_of, h1, h2]
  refine ⟨?_, ?_, ?_, ?_⟩
  · simp [chat, hs]
  · simp [chat, hs]
  · simp only [chat, hs, List.nil_append, List.isEmpty_nil, Bool.or_true]
    decide
  · intro hne
    simp [chat, hs, List.map_eq_nil_iff, hne]

/-- Claim C2, witness: a question containing the structured-indicator term
"pret" against an empty store yields no structured evidence, and the document
hit is served with the document flow label. -/
theorem C2_fallback_witness :
    (chat (Except.ok dbEmpty) [⟨"c", "ghid.pdf", 2⟩] "pret").contexts =
      ([⟨"c", "ghid.pdf", 2⟩] : List SearchHit).map (fun r => "DOCUMENTE: " ++ r.content) ∧
    (chat (Except.ok dbEmpty) [⟨"c", "ghid.pdf", 2⟩] "pret").citations =
      ([⟨"c", "ghid.pdf", 2⟩] : List SearchHit).map (fun r => Citation.mk r.source r.chunk_id) ∧
    (chat (Except.ok dbEmpty) [⟨"c", "ghid.pdf", 2⟩] "pret").execution_flow = "SEARCH + LLM" ∧
    (([⟨"c", "ghid.pdf", 2⟩] : List SearchHit) ≠ [] →
      (chat (Except.ok dbEmpty) [⟨"c", "ghid.pdf", 2⟩] "pret").contexts ≠ []) :=
  C2_fallback (Except.ok dbEmpty) [⟨"c", "ghid.pdf", 2⟩] "pret" (by decide) (by decide)

/-- Claim C3, counterexample: on a question matching neither vocabulary and a
document search that returns zero hits, no retrieval path produced any
evidence, yet the flow label still contains the document tag SEARCH. -/
theorem C3_counterexample :
    (chat (Except.error "down") [] "x").contexts = [] ∧
    (chat (Except.error "down") [] "x").citations = [] ∧
    (chat (Except.error "down") [] "x").execution_flow = "SEARCH + LLM" := by
  decide

/-- Claim C3, amended: the SQL tag appears in the flow label exactly when the
structured path produced evidence, while the SEARCH tag appears whenever the
document path was invoked — regardless of how many hits it returned; the
label is the ordered deduplicated tag list with the generation suffix
appended. The full characterization: SQL + SEARCH + LLM when structured
evidence exists and the document vocabulary fired, SQL + LLM when structured
evidence exists and it did not, and SEARCH + LLM otherwise. -/
theorem C3_amended (conn : Except String Db) (res : List SearchHit) (q : String) :
    (chat conn res q).execution_flow =
      if (sql_info_of conn q).isSome then
        (if needs_search q then "SQL + SEARCH + LLM" else "SQL + LLM")
      else "SEARCH + LLM" := by
  cases hs : sql_info_of conn q with
  | none =>
    simp only [chat, hs, Option.isSome_none, Bool.false_eq_true, if_false,
      List.nil_append, List.isEmpty_nil, Bool.or_true]
    decide
  | some info =>
    cases hd : needs_search q with
    | true =>
      simp only [chat, hs, hd, Option.isSome_some, if_true, Bool.true_or,
        List.isEmpty_cons, Bool.or_false]
      decide
    | false =>
      simp only [chat, hs, hd, Option.isSome_some, if_true, if_false,
        List.isEmpty_cons, Bool.false_or, Bool.false_eq_true, List.append_nil]
      decide

/-- Claim C4, counterexample: the question "ora bus" contains both a
structured-indicator term ("ora") and a document-indicator term ("bus"), but
the structured resolver yields no evidence (the store is unreachable), so the
flow label is SEARCH + LLM and does not include the structured tag. -/
theorem C4_counterexample :
    is_sql_query "ora bus" = true ∧
    needs_search "ora bus" = true ∧
    (chat (Except.error "down") [] "ora bus").execution_flow = "SEARCH + LLM" ∧
    containsSub "SEARCH + LLM" "SQL" = false := by
  decide

/-- Claim C4, amended: for a question containing a document-indicator term
for which the structured path produced evidence (which requires a
structured-indicator term), the flow label is SQL + SEARCH + LLM, i.e. the
structured tag, the document tag and the generation step in that order. -/
theorem C4_amended (conn : Except String Db) (res : List SearchHit) (q info : String)
    (h1 : needs_search q = true) (h2 : sql_info_of conn q = some info) :
    (chat conn res q).execution_flow = "SQL + SEARCH + LLM" := by
  simp only [chat, h2, h1, Bool.true_or]
  decide

/-- Claim C4, witness: "pret bus l" carries both vocabularies and the store
resolves the entity, so the label is SQL + SEARCH + LLM. -/
theorem C4_amended_witness :
    (chat (Except.ok dbL) [] "pret bus l").execution_flow = "SQL + SEARCH + LLM" :=
  C4_amended (Except.ok dbL) [] "pret bus l" "l (Orar: 9-17, Bilete: adult: 22 eur)"
    (by decide) (by decide)

/-- Claim C5: a failure contacting the structured store (the error case of
the connection) is absorbed by the resolver into the no-evidence result, and
the chat handler then serves the request through the document path: the
context and citations are exactly the document hits and the flow label is
SEARCH + LLM. This holds for every question and every hit list, so no
user-visible error is ever produced by the structured path. -/
theorem C5_sql_failure_contained (e q : String) (res : List SearchHit) :
    get_sql_data (Except.error e) q = none ∧
    (chat (Except.error e) res q).contexts = res.map (fun r => "DOCUMENTE: " ++ r.content) ∧
    (chat (Except.error e) res q).citations = res.map (fun r => Citation.mk r.source r.chunk_id) ∧
    (chat (Except.error e) res q).execution_flow = "SEARCH + LLM" := by
  have hg : get_sql_data (Except.error e) q = none := rfl
  have hs : sql_info_of (Except.error e) q = none := by
    simp [sql_info_of, hg]
  refine ⟨hg, ?_, ?_, ?_⟩
  · simp [chat, hs]
  · simp [chat, hs]
  · simp only [chat, hs, List.nil_append, List.isEmpty_nil, Bool.or_true]
    decide

/-- Claim C6, counterexample: the two resolver sub-modes are not mutually
exclusive. On "ieftin l" aggregate mode is triggered (order ASC), but the
store has no ticket rows, so the aggregate fetch returns no row and control
falls through to the entity-scoped lookup, which matches the entity "l" and
returns its evidence instead of none. -/
theorem C6_counterexample :
    aggOrder (lowerStr "ieftin l") = some SqlOrder.asc ∧
    dbNT.tickets = [] ∧
    get_sql_data (Except.ok dbNT) "ieftin l" = some "l (Orar: 9-17, Bilete: )" := by
  decide

/-- Claim C6, amended: when the question triggers aggregate mode and the
store has at least one ticket row (joined to its attraction), the resolver
returns exactly the one evidence item naming the entity, ticket type and
price of the selected extremal row, whose price is minimal (ASC) or maximal
(DESC) among all joined ticket rows, and the entity-scoped lookup is not
performed; with no ticket rows the resolver instead falls through to the
entity-scoped mode. -/
theorem C6_amended (db : Db) (q : String) (o : SqlOrder)
    (h1 : aggOrder (lowerStr q) = some o)
    (h2 : joinedTickets db ≠ []) :
    ∃ r : AggRow, top1 o (joinedTickets db) = some r ∧
      get_sql_data (Except.ok db) q = some (aggMsg r) ∧
      ∀ r2 ∈ joinedTickets db, priceLe o r.price r2.price := by
  cases hj : joinedTickets db with
  | nil => exact absurd hj h2
  | cons r0 rs =>
    refine ⟨top1Aux o r0 rs, by simp [top1], ?_, ?_⟩
    · simp only [get_sql_data, h1, hj, top1]
    · intro r2 hr2
      obtain ⟨m1, m2⟩ := top1Aux_min o rs r0
      rcases List.mem_cons.mp hr2 with hh | hh
      · subst hh; exact m1
      · exact m2 r2 hh

/-- Claim C6, witness: on "ieftin" against a store with two ticket rows the
aggregate returns the 3 eur child ticket, the cheapest row. -/
theorem C6_amended_witness :
    ∃ r : AggRow, top1 SqlOrder.asc (joinedTickets dbAgg) = some r ∧
      get_sql_data (Except.ok dbAgg) "ieftin" = some (aggMsg r) ∧
      ∀ r2 ∈ joinedTickets dbAgg, priceLe SqlOrder.asc r.price r2.price :=
  C6_amended dbAgg "ieftin" SqlOrder.asc (by decide) (by decide)

/-- Claim C7, counterexample: a ticket row with price 0 is dropped by the
truthiness test `if r.price:` of the grouping loop, so on a store whose only
ticket for the matched entity is free, the evidence item does not name that
ticket line. -/
theorem C7_counterexample :
    dbFree.tickets = [⟨"l", "copil", 0, "eur"⟩] ∧
    is_sql_query "pret l" = true ∧
    aggOrder (lowerStr "pret l") = none ∧
    matchedAttractions dbFree (lowerStr "pret l") = ["l"] ∧
    get_sql_data (Except.ok dbFree) "pret l" = some "l (Orar: 9-17, Bilete: )" ∧
    containsSub "l (Orar: 9-17, Bilete: )" "copil: 0 eur" = false := by
  decide

/-- Claim C7, amended: for a question containing a structured-indicator
term, not triggering aggregate mode, and resolving to exactly one matched
entity, the structured resolver returns exactly one evidence item; that item
names the entity together with its recorded hours, and names every ticket
line of that entity whose price is present and nonzero (price-0 rows are
dropped by the source's truthiness test). -/
theorem C7_amended (db : Db) (q m : String)
    (_hq : is_sql_query q = true)
    (h1 : aggOrder (lowerStr q) = none)
    (h2 : matchedAttractions db (lowerStr q) = [m]) :
    ∃ s : String, get_sql_data (Except.ok db) q = some s ∧
      containsSub s (m ++ " (Orar: " ++ orarOf db m ++ ", Bilete: ") = true ∧
      ∀ t ∈ db.tickets, t.attraction_name = m → t.price ≠ 0 →
        containsSub s (t.ticket_type ++ ": " ++ toString t.price ++ " " ++ t.currency) = true := by
  obtain ⟨r0, rest, hcons, hname, horar⟩ := leftJoinRows_head db m
  have hrows : entityRows db (lowerStr q) = r0 :: rest := by
    unfold entityRows
    rw [h2]
    simpa using hcons
  have hall : ∀ r ∈ rest, r.attraction_name = m := by
    intro r hr
    exact leftJoinRows_name db m r (by rw [hcons]; exact List.mem_cons_of_mem r0 hr)
  have hgroup := groupRows_single m r0 rest hname hall
  have hval : get_sql_data (Except.ok db) q =
      some (renderGroup ⟨m, orarOf db m, linesOf (r0 :: rest)⟩) := by
    have hval1 : get_sql_data (Except.ok db) q = entityPart db (lowerStr q) := by
      simp only [get_sql_data, h1]
    rw [hval1]
    unfold entityPart
    rw [hrows]
    show some (joinSep "\n" (List.map renderGroup (groupRows (r0 :: rest)))) =
      some (renderGroup ⟨m, orarOf db m, linesOf (r0 :: rest)⟩)
    rw [hgroup, horar]
    simp [joinSep]
  refine ⟨renderGroup ⟨m, orarOf db m, linesOf (r0 :: rest)⟩, hval, ?_, ?_⟩
  · exact containsSub_append_right ")"
      (containsSub_append_right (joinSep ", " (linesOf (r0 :: rest)))
        (containsSub_self (m ++ " (Orar: " ++ orarOf db m ++ ", Bilete: ")))
  · intro t htmem hta htp
    have hline := ticket_line_mem db m t htmem hta htp
    rw [hcons] at hline
    have hjoin := mem_joinSep ", " (linesOf (r0 :: rest)) _ hline
    exact containsSub_append_right ")"
      (containsSub_append_left (m ++ " (Orar: " ++ orarOf db m ++ ", Bilete: ") hjoin)

/-- Claim C7, witness: "pret l" against a store with entity "l", hours 9-17
and one adult ticket at 22 eur yields one evidence item naming the hours and
that ticket line. -/
theorem C7_amended_witness :
    ∃ s : String, get_sql_data (Except.ok dbL) "pret l" = some s ∧
      containsSub s ("l" ++ " (Orar: " ++ orarOf dbL "l" ++ ", Bilete: ") = true ∧
      ∀ t ∈ dbL.tickets, t.attraction_name = "l" → t.price ≠ 0 →
        containsSub s (t.ticket_type ++ ": " ++ toString t.price ++ " " ++ t.currency) = true :=
  C7_amended dbL "pret l" "l" (by decide) (by decide) (by decide)

/-- Claim C8: aggregate mode is deterministic over an unchanged store: any
two questions triggering the same aggregate direction produce identical
resolver output whenever the store has at least one joined ticket row, and
that output is the rendered aggregate record. Since the embedding is a pure
function, running the same query twice is the special case q1 = q2. -/
theorem C8_aggregate_deterministic (db : Db) (q1 q2 : String) (o : SqlOrder)
    (h1 : aggOrder (lowerStr q1) = some o)
    (h2 : aggOrder (lowerStr q2) = some o)
    (h3 : joinedTickets db ≠ []) :
    get_sql_data (Except.ok db) q1 = get_sql_data (Except.ok db) q2 ∧
    ∃ r : AggRow, get_sql_data (Except.ok db) q1 = some (aggMsg r) := by
  cases hj : joinedTickets db with
  | nil => exact absurd hj h3
  | cons r0 rs =>
    have e1 : get_sql_data (Except.ok db) q1 = some (aggMsg (top1Aux o r0 rs)) := by
      simp only [get_sql_data, h1, hj, top1]
    have e2 : get_sql_data (Except.ok db) q2 = some (aggMsg (top1Aux o r0 rs)) := by
      simp only [get_sql_data, h2, hj, top1]
    exact ⟨e1.trans e2.symm, ⟨top1Aux o r0 rs, e1⟩⟩

/-- Claim C8, witness: the differently-phrased cheapest-ticket questions
"ieftin" and "mic x" give the same aggregate answer on the same store. -/
theorem C8_aggregate_deterministic_witness :
    get_sql_data (Except.ok dbAgg) "ieftin" = get_sql_data (Except.ok dbAgg) "mic x" ∧
    ∃ r : AggRow, get_sql_data (Except.ok dbAgg) "ieftin" = some (aggMsg r) :=
  C8_aggregate_deterministic dbAgg "ieftin" "mic x" SqlOrder.asc (by decide) (by decide) (by decide)

theorem map_text_mkEv (res : List SearchHit) :
    (res.map (fun hit => (⟨"DOCUMENTE: " ++ hit.content, ⟨hit.source, hit.chunk_id⟩⟩ : EvidenceItem))).map
      EvidenceItem.text = res.map (fun hit => "DOCUMENTE: " ++ hit.content) := by
  induction res with
  | nil => rfl
  | cons hit hits ih => simp [ih]

theorem map_cite_mkEv (res : List SearchHit) :
    (res.map (fun hit => (⟨"DOCUMENTE: " ++ hit.content, ⟨hit.source, hit.chunk_id⟩⟩ : EvidenceItem))).map
      EvidenceItem.cite = res.map (fun hit => Citation.mk hit.source hit.chunk_id) := by
  induction res with
  | nil => rfl
  | cons hit hits ih => simp [ih]

/-- Claim C9: for every request there is a single evidence list from which
both the assembled context and the citation list are projected, in the same
order — each context item appended contributes exactly one citation appended
at the same step; the structured part (at most one item, always citing the
structured source) precedes every document item. -/
theorem C9_citation_context_correspondence (conn : Except String Db) (res : List SearchHit) (q : String) :
    ∃ s d : List EvidenceItem,
      (∀ ev ∈ s, ev.cite = Citation.mk "Azure SQL Database" 0) ∧
      s.length ≤ 1 ∧
      (∀ ev ∈ d, ∃ hit ∈ res, ev.text = "DOCUMENTE: " ++ hit.content ∧
        ev.cite = Citation.mk hit.source hit.chunk_id) ∧
      (chat conn res q).contexts = (s ++ d).map EvidenceItem.text ∧
      (chat conn res q).citations = (s ++ d).map EvidenceItem.cite := by
  cases hs : sql_info_of conn q with
  | none =>
    refine ⟨[], res.map (fun hit => ⟨"DOCUMENTE: " ++ hit.content, ⟨hit.source, hit.chunk_id⟩⟩),
      ?_, ?_, ?_, ?_, ?_⟩
    · intro ev hev; cases hev
    · simp
    · intro ev hev
      rw [List.mem_map] at hev
      obtain ⟨hit, hh, rfl⟩ := hev
      exact ⟨hit, hh, rfl, rfl⟩
    · simp [chat, hs, map_text_mkEv]
    · simp [chat, hs, map_cite_mkEv]
  | some info =>
    cases hd : needs_search q with
    | true =>
      refine ⟨[⟨"DATE SQL:\n" ++ info, ⟨"Azure SQL Database", 0⟩⟩],
        res.map (fun hit => ⟨"DOCUMENTE: " ++ hit.content, ⟨hit.source, hit.chunk_id⟩⟩),
        ?_, ?_, ?_, ?_, ?_⟩
      · intro ev hev
        rcases List.mem_cons.mp hev with h1 | h1
        · subst h1; rfl
        · cases h1
      · simp
      · intro ev hev
        rw [List.mem_map] at hev
        obtain ⟨hit, hh, rfl⟩ := hev
        exact ⟨hit, hh, rfl, rfl⟩
      · simp [chat, hs, hd, map_text_mkEv]
      · simp [chat, hs, hd, map_cite_mkEv]
    | false =>
      refine ⟨[⟨"DATE SQL:\n" ++ info, ⟨"Azure SQL Database", 0⟩⟩], [], ?_, ?_, ?_, ?_, ?_⟩
      · intro ev hev
        rcases List.mem_cons.mp hev with h1 | h1
        · subst h1; rfl
        · cases h1
      · simp
      · intro ev hev; cases hev
      · simp [chat, hs, hd]
      · simp [chat, hs, hd]

/-- Claim C10: assuming the document service honors its top-k cap of 3 (the
handler always calls it with top=3), the citation list of any completed
request splits into a structured part of at most one entry — which, when
present, is exactly (Azure SQL Database, 0) — followed by a document part of
at most three entries, for at most four citations in total. -/
theorem C10_citation_bound (conn : Except String Db) (res : List SearchHit) (q : String)
    (h : res.length ≤ 3) :
    ∃ sPart dPart : List Citation,
      (chat conn res q).citations = sPart ++ dPart ∧
      sPart.length ≤ 1 ∧
      (∀ c ∈ sPart, c = Citation.mk "Azure SQL Database" 0) ∧
      dPart.length ≤ 3 ∧
      (chat conn res q).citations.length ≤ 4 := by
  cases hs : sql_info_of conn q with
  | none =>
    refine ⟨[], res.map (fun r => Citation.mk r.source r.chunk_id), ?_, by simp, ?_, ?_, ?_⟩
    · simp [chat, hs]
    · intro c hc; cases hc
    · simpa using h
    · simp only [chat, hs]
      simp
      omega
  | some info =>
    cases hd : needs_search q with
    | true =>
      refine ⟨[⟨"Azure SQL Database", 0⟩], res.map (fun r => Citation.mk r.source r.chunk_id),
        ?_, by simp, ?_, ?_, ?_⟩
      · simp [chat, hs, hd]
      · intro c hc
        rcases List.mem_cons.mp hc with h1 | h1
        · exact h1
        · cases h1
      · simpa using h
      · simp only [chat, hs, hd]
        simp
        omega
    | false =>
      refine ⟨[⟨"Azure SQL Database", 0⟩], [], ?_, by simp, ?_, by simp, ?_⟩
      · simp [chat, hs, hd]
      · intro c hc
        rcases List.mem_cons.mp hc with h1 | h1
        · exact h1
        · cases h1
      · simp [chat, hs, hd]

/-- Claim C10, witness: one document hit and an unreachable store give a
one-element citation list, within all bounds. -/
theorem C10_citation_bound_witness :
    ∃ sPart dPart : List Citation,
      (chat (Except.error "down") [⟨"c", "a.pdf", 1⟩] "").citations = sPart ++ dPart ∧
      sPart.length ≤ 1 ∧
      (∀ c ∈ sPart, c = Citation.mk "Azure SQL Database" 0) ∧
      dPart.length ≤ 3 ∧
      (chat (Except.error "down") [⟨"c", "a.pdf", 1⟩] "").citations.length ≤ 4 :=
  C10_citation_bound (Except.error "down") [⟨"c", "a.pdf", 1⟩] "" (by decide)
